import Mathlib

/-!
Shallow embedding of the PacketScope capture-to-storage pipeline
(PacketProcessor, PacketStore, ThreadPool, PacketCapture, PipelineController)
and proofs of the specification claims about it.

Machine integers of the C++ source are modelled as `Int`/`Nat`; the
`static_cast<std::size_t>` conversion in `PacketStore::getById` is modelled
explicitly as reduction modulo `2 ^ 64`.
-/

namespace PacketScope

/-! ## Protocol decoder data model (include/Types.hpp, src/PacketProcessor.cpp)

The parsing of the raw bytes into a chain of layers is performed by the
external PcapPlusPlus library (`pcpp::Packet`); the embedding therefore takes
the already-parsed layer chain as input and models what
`PacketProcessor::process` does while walking it. -/

/-- Model of `pcpp::ProtocolType` restricted to the constants the source
names; every other PcapPlusPlus protocol constant is modelled by `other n`. -/
inductive ProtocolType where
  | ethernet | arp | ipv4 | ipv6 | icmp | icmpv6 | tcp | udp | dns
  | httpRequest | httpResponse | ssl | ssh | ftp
  | genericPayload | unknownProtocol | packetTrailer
  | other (n : Nat)
  deriving DecidableEq, Repr

/-- Model of one `pcpp::Layer` of the parsed chain: its protocol constant,
its `toString()` summary, and the source/destination address strings its
accessors would return (meaningful for Ethernet, IPv4 and IPv6 layers). -/
structure Layer where
  protocol : ProtocolType
  summary : String
  srcAddr : String
  dstAddr : String
  deriving DecidableEq, Repr

/-- Model of `packetscope::RawPacketData` (include/Types.hpp). Raw bytes are
a list of byte values; the timestamp is an abstract tick count. -/
structure RawPacketData where
  timestamp : Int
  rawData : List Nat
  rawDataLen : Int
  frameLength : Int
  deriving DecidableEq, Repr

/-- Model of `packetscope::ParsedPacket` (include/Types.hpp). -/
structure ParsedPacket where
  id : Int
  timestamp : Int
  rawDataLen : Int
  frameLength : Int
  rawData : List Nat
  srcAddr : String
  dstAddr : String
  protocol : String
  info : String
  layerSummaries : List String
  deriving DecidableEq, Repr

/-- Value initialization `packetscope::ParsedPacket result{}`: integers are
zero, strings are empty, vectors are empty. -/
def ParsedPacket.valueInit : ParsedPacket :=
  { id := 0, timestamp := 0, rawDataLen := 0, frameLength := 0, rawData := []
  , srcAddr := "", dstAddr := "", protocol := "", info := "", layerSummaries := [] }

/-- Direct transcription of `PacketProcessor::protocolTypeToString`. -/
def protocolTypeToString : ProtocolType → String
  | .ethernet => "Ethernet"
  | .arp => "ARP"
  | .ipv4 => "IPv4"
  | .ipv6 => "IPv6"
  | .icmp => "ICMP"
  | .icmpv6 => "ICMPv6"
  | .tcp => "TCP"
  | .udp => "UDP"
  | .dns => "DNS"
  | .httpRequest => "HTTP"
  | .httpResponse => "HTTP"
  | .ssl => "TLS"
  | .ssh => "SSH"
  | .ftp => "FTP"
  | _ => "Unknown"

/-- The guard of the protocol-label update in `PacketProcessor::process`:
the label is overwritten unless the layer's protocol is `GenericPayload`,
`UnknownProtocol` or `PacketTrailer`. -/
def updatesLabel (t : ProtocolType) : Bool :=
  t != .genericPayload && t != .unknownProtocol && t != .packetTrailer

/-- The protocols of the address-extracting `switch` cases in
`PacketProcessor::process`. -/
def addrBearing (t : ProtocolType) : Bool :=
  t == .ethernet || t == .ipv4 || t == .ipv6

/-- One iteration of the layer-walk `while` loop of
`PacketProcessor::process`: append the layer summary, conditionally update
the protocol label, and extract addresses in the Ethernet/IPv4/IPv6 cases. -/
def processLayer (acc : ParsedPacket) (layer : Layer) : ParsedPacket :=
  let acc1 := { acc with layerSummaries := acc.layerSummaries ++ [layer.summary] }
  let acc2 :=
    if updatesLabel layer.protocol then
      { acc1 with protocol := protocolTypeToString layer.protocol }
    else acc1
  if addrBearing layer.protocol then
    { acc2 with srcAddr := layer.srcAddr, dstAddr := layer.dstAddr }
  else acc2

/-- Model of `PacketProcessor::process`: copy the metadata into a
value-initialized `ParsedPacket`, then walk the layer chain produced by the
external PcapPlusPlus parser from lowest to highest layer. -/
def process (raw : RawPacketData) (layers : List Layer) : ParsedPacket :=
  layers.foldl processLayer
    { ParsedPacket.valueInit with
        timestamp := raw.timestamp
      , rawData := raw.rawData
      , rawDataLen := raw.rawDataLen
      , frameLength := raw.frameLength }

/-! Helper lemmas: the protocol label and addresses after the fold are those
of the last layer passing the respective guard. -/

theorem processLayer_protocol (acc : ParsedPacket) (l : Layer) :
    (processLayer acc l).protocol =
      if updatesLabel l.protocol then protocolTypeToString l.protocol
      else acc.protocol := by
  unfold processLayer
  by_cases ha : addrBearing l.protocol <;> by_cases hl : updatesLabel l.protocol <;>
    simp [ha, hl]

theorem processLayer_srcAddr (acc : ParsedPacket) (l : Layer) :
    (processLayer acc l).srcAddr =
      if addrBearing l.protocol then l.srcAddr else acc.srcAddr := by
  unfold processLayer
  by_cases ha : addrBearing l.protocol <;> by_cases hl : updatesLabel l.protocol <;>
    simp [ha, hl]

theorem processLayer_dstAddr (acc : ParsedPacket) (l : Layer) :
    (processLayer acc l).dstAddr =
      if addrBearing l.protocol then l.dstAddr else acc.dstAddr := by
  unfold processLayer
  by_cases ha : addrBearing l.protocol <;> by_cases hl : updatesLabel l.protocol <;>
    simp [ha, hl]

theorem foldl_processLayer_protocol (layers : List Layer) (acc : ParsedPacket) :
    (layers.foldl processLayer acc).protocol =
      match (layers.filter (fun l => updatesLabel l.protocol)).getLast? with
      | some l => protocolTypeToString l.protocol
      | none => acc.protocol := by
  induction layers generalizing acc with
  | nil => rfl
  | cons l ls ih =>
    simp only [List.foldl_cons, List.filter_cons]
    rw [ih]
    cases hrec : (ls.filter (fun l => updatesLabel l.protocol)).getLast? with
    | some l' =>
      by_cases hl : updatesLabel l.protocol
      · rw [if_pos hl, List.getLast?_cons, hrec]
        rfl
      · rw [if_neg hl, hrec]
    | none =>
      have hnil : ls.filter (fun l => updatesLabel l.protocol) = [] := by
        cases h : ls.filter (fun l => updatesLabel l.protocol) with
        | nil => rfl
        | cons a as =>
          rw [h, List.getLast?_cons] at hrec
          exact absurd hrec (by simp)
      by_cases hl : updatesLabel l.protocol
      · rw [if_pos hl, hnil]
        simp [processLayer_protocol, hl]
      · rw [if_neg hl, hrec]
        simp [processLayer_protocol, hl]

theorem foldl_processLayer_srcAddr (layers : List Layer) (acc : ParsedPacket) :
    (layers.foldl processLayer acc).srcAddr =
      match (layers.filter (fun l => addrBearing l.protocol)).getLast? with
      | some l => l.srcAddr
      | none => acc.srcAddr := by
  induction layers generalizing acc with
  | nil => rfl
  | cons l ls ih =>
    simp only [List.foldl_cons, List.filter_cons]
    rw [ih]
    cases hrec : (ls.filter (fun l => addrBearing l.protocol)).getLast? with
    | some l' =>
      by_cases ha : addrBearing l.protocol
      · rw [if_pos ha, List.getLast?_cons, hrec]
        rfl
      · rw [if_neg ha, hrec]
    | none =>
      have hnil : ls.filter (fun l => addrBearing l.protocol) = [] := by
        cases h : ls.filter (fun l => addrBearing l.protocol) with
        | nil => rfl
        | cons a as =>
          rw [h, List.getLast?_cons] at hrec
          exact absurd hrec (by simp)
      by_cases ha : addrBearing l.protocol
      · rw [if_pos ha, hnil]
        simp [processLayer_srcAddr, ha]
      · rw [if_neg ha, hrec]
        simp [processLayer_srcAddr, ha]

theorem foldl_processLayer_dstAddr (layers : List Layer) (acc : ParsedPacket) :
    (layers.foldl processLayer acc).dstAddr =
      match (layers.filter (fun l => addrBearing l.protocol)).getLast? with
      | some l => l.dstAddr
      | none => acc.dstAddr := by
  induction layers generalizing acc with
  | nil => rfl
  | cons l ls ih =>
    simp only [List.foldl_cons, List.filter_cons]
    rw [ih]
    cases hrec : (ls.filter (fun l => addrBearing l.protocol)).getLast? with
    | some l' =>
      by_cases ha : addrBearing l.protocol
      · rw [if_pos ha, List.getLast?_cons, hrec]
        rfl
      · rw [if_neg ha, hrec]
    | none =>
      have hnil : ls.filter (fun l => addrBearing l.protocol) = [] := by
        cases h : ls.filter (fun l => addrBearing l.protocol) with
        | nil => rfl
        | cons a as =>
          rw [h, List.getLast?_cons] at hrec
          exact absurd hrec (by simp)
      by_cases ha : addrBearing l.protocol
      · rw [if_pos ha, hnil]
        simp [processLayer_dstAddr, ha]
      · rw [if_neg ha, hrec]
        simp [processLayer_dstAddr, ha]

/-! Concrete sample layers used to instantiate the decoder theorems. -/

/-- Sample Ethernet layer with MAC addresses. -/
def ethLayer : Layer :=
  { protocol := .ethernet, summary := "Ethernet II"
  , srcAddr := "aa:bb:cc:dd:ee:01", dstAddr := "aa:bb:cc:dd:ee:02" }

/-- Sample IPv4 layer with IP addresses. -/
def ipv4Layer : Layer :=
  { protocol := .ipv4, summary := "IPv4 layer"
  , srcAddr := "10.0.0.1", dstAddr := "10.0.0.2" }

/-- Sample TCP layer (no address extraction case for TCP). -/
def tcpLayer : Layer :=
  { protocol := .tcp, summary := "TCP layer", srcAddr := "", dstAddr := "" }

/-- Sample unrecognized trailing payload layer. -/
def payloadLayer : Layer :=
  { protocol := .genericPayload, summary := "Payload", srcAddr := "", dstAddr := "" }

/-- Sample raw frame metadata. -/
def rawSample : RawPacketData :=
  { timestamp := 7, rawData := [0, 1, 2, 3], rawDataLen := 4, frameLength := 4 }

/-- C4: the displayed protocol label is that of the last traversed layer whose
protocol passes the recognition guard (not `GenericPayload`, not
`UnknownProtocol`, not `PacketTrailer`); payload and trailer layers never
overwrite the label, so unrecognized trailing bytes never downgrade it. -/
theorem C4_protocol_label_highest_recognized (raw : RawPacketData)
    (layers : List Layer) (l : Layer)
    (h : (layers.filter (fun l => updatesLabel l.protocol)).getLast? = some l) :
    (process raw layers).protocol = protocolTypeToString l.protocol := by
  unfold process
  rw [foldl_processLayer_protocol, h]

/-- Witness for C4: Ethernet followed by unrecognized payload yields
"Ethernet"; Ethernet/IPv4/TCP yields "TCP". -/
theorem C4_protocol_label_highest_recognized_witness :
    (process rawSample [ethLayer, payloadLayer]).protocol = "Ethernet" ∧
    (process rawSample [ethLayer, ipv4Layer, tcpLayer]).protocol = "TCP" :=
  ⟨C4_protocol_label_highest_recognized rawSample [ethLayer, payloadLayer]
      ethLayer (by rfl),
   C4_protocol_label_highest_recognized rawSample [ethLayer, ipv4Layer, tcpLayer]
      tcpLayer (by rfl)⟩

/-- C5 counterexample: a frame whose only layer is an unrecognized generic
payload produces the protocol label "" (the value-initialized
`std::string`), not the "Unknown" marker the claim states. -/
theorem C5_counterexample_empty_not_unknown :
    (process rawSample [payloadLayer]).protocol = "" ∧
    (process rawSample [payloadLayer]).protocol ≠ "Unknown" := by
  exact ⟨rfl, by decide⟩

/-- C5 amended: for every input frame in which no recognized layer is
traversed by the decoder, the protocol label of the resulting record remains
the empty string it was value-initialized to (not an "Unknown" marker). -/
theorem C5_amended_no_recognized_layer_empty_label (raw : RawPacketData)
    (layers : List Layer)
    (h : ∀ l ∈ layers, updatesLabel l.protocol = false) :
    (process raw layers).protocol = "" := by
  unfold process
  rw [foldl_processLayer_protocol]
  have hnil : layers.filter (fun l => updatesLabel l.protocol) = [] := by
    rw [List.filter_eq_nil_iff]
    intro a ha
    simp [h a ha]
  rw [hnil]
  rfl

/-- Witness for C5 amended: the generic-payload-only frame keeps the empty
label. -/
theorem C5_amended_no_recognized_layer_empty_label_witness :
    (process rawSample [payloadLayer]).protocol = "" :=
  C5_amended_no_recognized_layer_empty_label rawSample [payloadLayer] (by decide)

/-- C7: the source/destination addresses of the decoded record are those of
the last traversed address-bearing layer (Ethernet, IPv4 or IPv6), so a later
layer overwrites the addresses of an earlier one. -/
theorem C7_addresses_last_address_bearing_layer (raw : RawPacketData)
    (layers : List Layer) (l : Layer)
    (h : (layers.filter (fun l => addrBearing l.protocol)).getLast? = some l) :
    (process raw layers).srcAddr = l.srcAddr ∧
    (process raw layers).dstAddr = l.dstAddr := by
  constructor
  · unfold process
    rw [foldl_processLayer_srcAddr, h]
  · unfold process
    rw [foldl_processLayer_dstAddr, h]

/-- Witness for C7: for an Ethernet/IPv4/TCP frame the record's addresses are
the IPv4 header's, not the Ethernet MAC addresses. -/
theorem C7_addresses_last_address_bearing_layer_witness :
    (process rawSample [ethLayer, ipv4Layer, tcpLayer]).srcAddr = "10.0.0.1" ∧
    (process rawSample [ethLayer, ipv4Layer, tcpLayer]).dstAddr = "10.0.0.2" :=
  ⟨(C7_addresses_last_address_bearing_layer rawSample
      [ethLayer, ipv4Layer, tcpLayer] ipv4Layer (by rfl)).1,
   (C7_addresses_last_address_bearing_layer rawSample
      [ethLayer, ipv4Layer, tcpLayer] ipv4Layer (by rfl)).2⟩

/-! ## PacketStore (include/core/PacketStore.hpp, src/PacketStore.cpp)

Every public method of the C++ class runs under the store's
`std::shared_mutex` for its whole body, so each method call is one atomic
state transformer in this embedding; an interleaving of concurrent callers is
an arbitrary sequence of such transformers. The `int id_` counter is modelled
as `Int`. -/

/-- State of a `PacketStore`: the `parsedPackets_` vector and the `id_`
counter. -/
structure PacketStore where
  parsedPackets : List ParsedPacket
  id_ : Int
  deriving DecidableEq, Repr

/-- The default-constructed store: empty vector, `int id_{}` is zero. -/
def PacketStore.construct : PacketStore :=
  { parsedPackets := [], id_ := 0 }

/-- Transcription of `PacketStore::addPacket`: under the exclusive lock,
`parsedPacket.id = ++id_` then `push_back`. -/
def PacketStore.addPacket (s : PacketStore) (p : ParsedPacket) : PacketStore :=
  { parsedPackets := s.parsedPackets ++ [{ p with id := s.id_ + 1 }]
  , id_ := s.id_ + 1 }

/-- Transcription of `PacketStore::getById`: under the shared lock, return
`parsedPackets_.at(static_cast<std::size_t>(id - 1))`. The cast of the
`int` argument to the 64-bit `std::size_t` is reduction modulo `2 ^ 64`, and
the `std::out_of_range` exception thrown by `.at` is modelled by `none`. -/
def PacketStore.getById (s : PacketStore) (id : Int) : Option ParsedPacket :=
  s.parsedPackets[((id - 1) % (2 ^ 64 : Int)).toNat]?

/-- Transcription of `PacketStore::count`: the vector's size. -/
def PacketStore.count (s : PacketStore) : Nat :=
  s.parsedPackets.length

/-- Transcription of `PacketStore::getAllPackets`: a copy of the vector. -/
def PacketStore.getAllPackets (s : PacketStore) : List ParsedPacket :=
  s.parsedPackets

/-- Transcription of `PacketStore::clear`: under the exclusive lock, swap the
vector with an empty one and reset `id_` to zero — both in the same critical
section, i.e. in one atomic transformer. -/
def PacketStore.clear (_ : PacketStore) : PacketStore :=
  { parsedPackets := [], id_ := 0 }

/-- A method call on the store, as seen by the serializing mutex. The read
methods are `const`: they are modelled as returning the state together with
their result. -/
inductive StoreOp where
  | add (p : ParsedPacket)
  | clear
  | getById (id : Int)
  | count
  | getAllPackets
  deriving Repr

/-- The state after one serialized method call. `getById`, `count` and
`getAllPackets` are `const` methods: the state they leave behind is the state
they were called in. -/
def StoreOp.apply (s : PacketStore) : StoreOp → PacketStore
  | .add p => s.addPacket p
  | .clear => s.clear
  | .getById _ => s
  | .count => s
  | .getAllPackets => s

/-- The store state reached from construction by a serialized sequence of
method calls (any interleaving of concurrent callers is such a sequence). -/
def runOps (ops : List StoreOp) : PacketStore :=
  ops.foldl StoreOp.apply PacketStore.construct

/-- The ID sequence 1, 2, ..., n. -/
def idSeq : Nat → List Int
  | 0 => []
  | n + 1 => idSeq n ++ [(n : Int) + 1]

/-- The store invariant: the counter equals the number of stored records and
the stored IDs are exactly 1, 2, ..., count. -/
def storeInv (s : PacketStore) : Prop :=
  s.id_ = (s.parsedPackets.length : Int) ∧
  s.parsedPackets.map (fun p => p.id) = idSeq s.parsedPackets.length

theorem storeInv_construct : storeInv PacketStore.construct :=
  ⟨rfl, rfl⟩

theorem storeInv_apply (s : PacketStore) (op : StoreOp) (h : storeInv s) :
    storeInv (StoreOp.apply s op) := by
  rcases h with ⟨hc, hids⟩
  cases op with
  | add p =>
    constructor
    · simp [StoreOp.apply, PacketStore.addPacket, hc]
    · simp only [StoreOp.apply, PacketStore.addPacket, List.map_append,
        List.length_append, List.map_cons, List.map_nil, List.length_cons,
        List.length_nil]
      rw [hids, hc]
      rfl
  | clear => exact ⟨rfl, rfl⟩
  | getById id => exact ⟨hc, hids⟩
  | count => exact ⟨hc, hids⟩
  | getAllPackets => exact ⟨hc, hids⟩

theorem storeInv_runOps (ops : List StoreOp) : storeInv (runOps ops) := by
  unfold runOps
  induction ops using List.reverseRecOn with
  | nil => exact storeInv_construct
  | append_singleton ops op ih =>
    rw [List.foldl_append, List.foldl_cons, List.foldl_nil]
    exact storeInv_apply _ op ih

/-- C2: after any serialized sequence of store method calls (in particular
any sequence of `addPacket` calls interleaved by the mutex, since
construction or the last `clear`), the stored IDs are the strictly
increasing, gap-free sequence 1, 2, ..., count(). -/
theorem C2_ids_sequential_gap_free (ops : List StoreOp) :
    (runOps ops).parsedPackets.map (fun p => p.id) =
      idSeq ((runOps ops).count) :=
  (storeInv_runOps ops).2

/-- C6: `clear()` resets the record set and the ID counter in one exclusive
critical section (one atomic transformer of this embedding, so no
concurrent writer observes a half-reset state), and the next `addPacket`
assigns ID 1 again. -/
theorem C6_clear_resets_atomically (s : PacketStore) (p : ParsedPacket) :
    s.clear = PacketStore.construct ∧
    ((s.clear).addPacket p).parsedPackets.map (fun p => p.id) = [1] ∧
    ((s.clear).addPacket p).id_ = 1 :=
  ⟨rfl, rfl, rfl⟩

/-- C10: implicit invariant of the store — after any sequence of method
calls, the ID counter equals the number of stored records, the record at
1-based position i carries ID i, and the read methods (`getById`, `count`,
`getAllPackets`) leave the state unchanged. -/
theorem C10_counter_matches_records (ops : List StoreOp) :
    (runOps ops).id_ = ((runOps ops).count : Int) ∧
    (runOps ops).parsedPackets.map (fun p => p.id) =
      idSeq ((runOps ops).count) ∧
    (∀ s : PacketStore, ∀ i : Int, StoreOp.apply s (.getById i) = s) ∧
    (∀ s : PacketStore, StoreOp.apply s .count = s) ∧
    (∀ s : PacketStore, StoreOp.apply s .getAllPackets = s) :=
  ⟨(storeInv_runOps ops).1, (storeInv_runOps ops).2,
    fun _ _ => rfl, fun _ => rfl, fun _ => rfl⟩

/-- C3: `getById(i)` fails (raises `std::out_of_range`, modelled as `none`)
for every `int` argument outside `[1, count()]` — including 0 and negative
values, whose cast to `std::size_t` wraps to an index far beyond the vector —
and returns the record at position `i - 1` for every `i` inside the range.
The store is any state whose vector is smaller than `2 ^ 63` entries (every
realizable state: a 64-bit process cannot hold more). -/
theorem C3_getById_range_check (s : PacketStore) (id : Int)
    (hlen : s.parsedPackets.length < 2 ^ 63)
    (hlo : -(2 ^ 31) ≤ id) (hhi : id < 2 ^ 31) :
    ((id < 1 ∨ (s.count : Int) < id) → s.getById id = none) ∧
    (1 ≤ id → id ≤ (s.count : Int) →
      s.getById id = s.parsedPackets[(id - 1).toNat]? ∧
      (s.getById id).isSome = true) := by
  constructor
  · intro hout
    unfold PacketStore.getById
    apply List.getElem?_eq_none
    unfold PacketStore.count at hout
    omega
  · intro h1 h2
    unfold PacketStore.count at h2
    unfold PacketStore.getById
    have hm : (id - 1) % (2 ^ 64 : Int) = id - 1 := by omega
    rw [hm]
    refine ⟨rfl, ?_⟩
    rw [List.getElem?_eq_getElem (by omega)]
    rfl

/-- Witness for C3: on a store holding one record, IDs 0, -3 and 2 fail with
the out-of-range condition and ID 1 succeeds. -/
theorem C3_getById_range_check_witness :
    (PacketStore.construct.addPacket ParsedPacket.valueInit).getById 0 = none ∧
    (PacketStore.construct.addPacket ParsedPacket.valueInit).getById (-3) = none ∧
    (PacketStore.construct.addPacket ParsedPacket.valueInit).getById 2 = none ∧
    ((PacketStore.construct.addPacket ParsedPacket.valueInit).getById 1).isSome
      = true := by
  refine ⟨?_, ?_, ?_, ?_⟩
  · exact (C3_getById_range_check _ 0 (by decide) (by decide) (by decide)).1
      (Or.inl (by decide))
  · exact (C3_getById_range_check _ (-3) (by decide) (by decide) (by decide)).1
      (Or.inl (by decide))
  · exact (C3_getById_range_check _ 2 (by decide) (by decide) (by decide)).1
      (Or.inr (by decide))
  · exact ((C3_getById_range_check _ 1 (by decide) (by decide) (by decide)).2
      (by decide) (by decide)).2

/-! ## ThreadPool (include/core/ThreadPool.hpp)

Task-queue items are `Option Unit`: `some ()` is a submitted task, `none` is
the poison-pill sentinel (the empty `std::function`). A worker thread is
modelled by its joined flag (`joinable()` is its negation). `shutdown` is the
state transformer the first caller's thread observes: flip the `stopped_`
flag (the `exchange`), push one sentinel per worker, join all workers. -/

/-- One `std::thread` worker of the pool, by its joined flag. -/
structure WorkerThread where
  joined : Bool
  deriving DecidableEq, Repr

/-- State of a `ThreadPool`. -/
structure ThreadPool where
  workers : List WorkerThread
  tasks : List (Option Unit)
  stopped : Bool
  deriving DecidableEq, Repr

/-- Transcription of the `ThreadPool` constructor: `max(threadCount, 1)`
worker threads, empty task queue, `stopped_` false. -/
def ThreadPool.construct (threadCount : Nat) : ThreadPool :=
  { workers := List.replicate (max threadCount 1) { joined := false }
  , tasks := [], stopped := false }

/-- Transcription of `ThreadPool::submit`: enqueue unless `stopped_`. -/
def ThreadPool.submit (s : ThreadPool) (t : Unit) : ThreadPool :=
  if !s.stopped then { s with tasks := s.tasks ++ [some t] } else s

/-- Transcription of `ThreadPool::joinAll`: join every joinable worker. -/
def ThreadPool.joinAll (s : ThreadPool) : ThreadPool :=
  { s with
      workers := s.workers.map (fun w =>
        if !w.joined then { w with joined := true } else w) }

/-- Transcription of `ThreadPool::shutdown`: `stopped_.exchange(true)`
returns the old flag — if it was already set, return immediately; otherwise
push one poison pill per worker thread and join them all. -/
def ThreadPool.shutdown (s : ThreadPool) : ThreadPool :=
  if s.stopped then s
  else ThreadPool.joinAll
    { s with stopped := true
           , tasks := s.tasks ++ List.replicate s.workers.length none }

/-- C9: `shutdown()` is idempotent — a second call changes nothing (it
enqueues no further sentinels and joins nothing); the first call on a
not-yet-stopped pool flips the flag, enqueues exactly one sentinel per
worker, and joins every worker. -/
theorem C9_shutdown_idempotent (s : ThreadPool) :
    ThreadPool.shutdown (ThreadPool.shutdown s) = ThreadPool.shutdown s ∧
    (ThreadPool.shutdown s).stopped = true ∧
    (s.stopped = false →
      (ThreadPool.shutdown s).tasks =
        s.tasks ++ List.replicate s.workers.length none ∧
      ∀ w ∈ (ThreadPool.shutdown s).workers, w.joined = true) := by
  have hstop : ∀ t : ThreadPool, (ThreadPool.shutdown t).stopped = true := by
    intro t
    by_cases h : t.stopped
    · rw [ThreadPool.shutdown, if_pos h]
      exact h
    · rw [ThreadPool.shutdown, if_neg h]
      rfl
  refine ⟨?_, hstop s, ?_⟩
  · conv_lhs => rw [ThreadPool.shutdown]
    rw [if_pos (hstop s)]
  · intro hs
    have hs' : ¬s.stopped = true := by simp [hs]
    constructor
    · rw [ThreadPool.shutdown, if_neg hs']
      rfl
    · intro w hw
      rw [ThreadPool.shutdown, if_neg hs'] at hw
      unfold ThreadPool.joinAll at hw
      simp only [List.mem_map] at hw
      rcases hw with ⟨w', _, hw'⟩
      by_cases hj : w'.joined
      · rw [← hw']
        simp [hj]
      · rw [← hw']
        simp [hj]

/-- Witness for C9 on a fresh two-worker pool: the double shutdown equals the
single one, and the first shutdown enqueued exactly two sentinels. -/
theorem C9_shutdown_idempotent_witness :
    ThreadPool.shutdown (ThreadPool.shutdown (ThreadPool.construct 2)) =
      ThreadPool.shutdown (ThreadPool.construct 2) ∧
    (ThreadPool.shutdown (ThreadPool.construct 2)).tasks =
      List.replicate 2 (none : Option Unit) :=
  ⟨(C9_shutdown_idempotent (ThreadPool.construct 2)).1,
   ((C9_shutdown_idempotent (ThreadPool.construct 2)).2.2 rfl).1⟩

/-! ## PacketCapture (include/PacketCapture.hpp, src/core/PacketCapture.cpp)

The PcapPlusPlus device registry is an external collaborator; it is modelled
by an environment telling, for a device name, whether
`getDeviceByName` finds it, whether `open()` succeeds, and whether
`startCapture` succeeds. The registered callback is modelled by an identity
(`none` = empty `std::function`, the unset callback). -/

/-- Behaviour of the external PcapPlusPlus device registry. -/
structure CaptureEnv where
  deviceExists : String → Bool
  deviceOpens : String → Bool
  captureStarts : String → Bool

/-- State of a `PacketCapture`: the `device_` pointer (by device name), the
running flag, the registered callback and the delivered-frame counter. -/
structure PacketCapture where
  device_ : Option String
  isRunning_ : Bool
  callback_ : Option Nat
  capturedPacketCount_ : Nat
  deriving DecidableEq, Repr

/-- The default-constructed `PacketCapture`. -/
def PacketCapture.construct : PacketCapture :=
  { device_ := none, isRunning_ := false, callback_ := none
  , capturedPacketCount_ := 0 }

/-- Transcription of `PacketCapture::start` (src/core/PacketCapture.cpp):
check the callback, check the running flag, assign
`device_ = getDeviceByName(deviceName)` (before checking the lookup
result), check it, `open()` it, assign `callback_`, then `startCapture`
(closing the device again on failure, which touches only the external
device, not the fields). -/
def PacketCapture.start (env : CaptureEnv) (s : PacketCapture)
    (deviceName : String) (cb : Option Nat) : Bool × PacketCapture :=
  if cb.isNone then (false, s)
  else if s.isRunning_ then (false, s)
  else
    let s1 := { s with
      device_ := if env.deviceExists deviceName then some deviceName else none }
    if s1.device_.isNone then (false, s1)
    else if !env.deviceOpens deviceName then (false, s1)
    else
      let s2 := { s1 with callback_ := cb }
      if !env.captureStarts deviceName then (false, s2)
      else (true, { s2 with isRunning_ := true })

/-- A registry in which every device name resolves but no device opens. -/
def envOpenFails : CaptureEnv :=
  { deviceExists := fun _ => true, deviceOpens := fun _ => false
  , captureStarts := fun _ => false }

/-- C8 counterexample: starting on a device that resolves but cannot be
opened returns false yet does change the state — `device_` has been
assigned the looked-up device before the open check, so the failed call is
not free of state change as the claim states. -/
theorem C8_counterexample_failed_start_changes_state :
    (PacketCapture.start envOpenFails PacketCapture.construct "eth0"
      (some 0)).1 = false ∧
    (PacketCapture.start envOpenFails PacketCapture.construct "eth0"
      (some 0)).2 ≠ PacketCapture.construct ∧
    (PacketCapture.start envOpenFails PacketCapture.construct "eth0"
      (some 0)).2.device_ = some "eth0" := by
  refine ⟨rfl, ?_, rfl⟩
  intro h
  have := congrArg PacketCapture.device_ h
  simp [PacketCapture.start, PacketCapture.construct, envOpenFails] at this

/-- C8 amended: every failure path of `start` returns false and leaves the
running flag and the delivered-frame counter unchanged; the unset-callback
and already-active paths change nothing at all; but the unknown-device,
cannot-open and refuse-to-start paths may overwrite the `device_` (and
`callback_`) fields before failing. -/
theorem C8_amended_failed_start_flag_and_counter_unchanged (env : CaptureEnv)
    (s : PacketCapture) (deviceName : String) (cb : Option Nat) :
    (cb.isNone = true → PacketCapture.start env s deviceName cb = (false, s)) ∧
    (cb.isNone = false → s.isRunning_ = true →
      PacketCapture.start env s deviceName cb = (false, s)) ∧
    ((PacketCapture.start env s deviceName cb).1 = false →
      (PacketCapture.start env s deviceName cb).2.isRunning_ = s.isRunning_ ∧
      (PacketCapture.start env s deviceName cb).2.capturedPacketCount_ =
        s.capturedPacketCount_) := by
  refine ⟨?_, ?_, ?_⟩
  · intro h
    simp [PacketCapture.start, h]
  · intro hcb hr
    simp [PacketCapture.start, hcb, hr]
  · intro hf
    by_cases hcb : cb.isNone
    · simp [PacketCapture.start, hcb]
    · by_cases hr : s.isRunning_
      · simp [PacketCapture.start, hcb, hr]
      · by_cases hex : env.deviceExists deviceName
        · by_cases hop : env.deviceOpens deviceName
          · by_cases hst : env.captureStarts deviceName
            · simp [PacketCapture.start, hcb, hr, hex, hop, hst] at hf
            · simp [PacketCapture.start, hcb, hr, hex, hop, hst]
          · simp [PacketCapture.start, hcb, hr, hex, hop]
        · simp [PacketCapture.start, hcb, hr, hex]

/-- Witness for C8 amended: the unset-callback path changes nothing, and the
cannot-open path leaves the running flag false and the counter at zero. -/
theorem C8_amended_failed_start_flag_and_counter_unchanged_witness :
    PacketCapture.start envOpenFails PacketCapture.construct "eth0" none =
      (false, PacketCapture.construct) ∧
    (PacketCapture.start envOpenFails PacketCapture.construct "eth0"
      (some 0)).2.isRunning_ = false ∧
    (PacketCapture.start envOpenFails PacketCapture.construct "eth0"
      (some 0)).2.capturedPacketCount_ = 0 := by
  refine ⟨?_, ?_, ?_⟩
  · exact (C8_amended_failed_start_flag_and_counter_unchanged envOpenFails
      PacketCapture.construct "eth0" none).1 rfl
  · exact ((C8_amended_failed_start_flag_and_counter_unchanged envOpenFails
      PacketCapture.construct "eth0" (some 0)).2.2 rfl).1
  · exact ((C8_amended_failed_start_flag_and_counter_unchanged envOpenFails
      PacketCapture.construct "eth0" (some 0)).2.2 rfl).2

/-! ## PipelineController stop sequence (src/core/PipelineController.cpp)

Interleaving model of the running pipeline and its `stop()` sequence. The
threads are: the capture-source delivery thread (pushing frames into
`rawPacketQueue_`), the dispatcher thread (popping the queue and submitting
decode-and-store tasks to the pool), the K = `max(kWorkerCount, 1)` worker
threads (popping and executing tasks), and the controller thread executing
the four ordered steps of `stop()` under the control lock. Each atomic
action (one lock-protected queue operation, one task execution, one `stop()`
step) is one transition. Queue items are `Option Unit`: `some ()` is a data
frame (or a decode-and-store task), `none` is the poison-pill sentinel. The
modelled decode-and-store task always completes with one `addPacket`, i.e.
the decoder is total (its exception paths are defensive). -/

/-- State of the dispatcher thread: between `pop` and `submit` it holds one
popped frame. -/
inductive DispState where
  | idle | holding | exited
  deriving DecidableEq, Repr

/-- State of one worker thread of the pool. -/
inductive WorkState where
  | idle | busy | exited
  deriving DecidableEq, Repr

/-- Position of the controller thread in the ordered `stop()` sequence. -/
inductive StopPhase where
  | running | capStopped | pillSent | dispJoined | poolStopping | stopped
  deriving DecidableEq, Repr

/-- Global state of the pipeline. `delivered` counts the frames the capture
source has delivered to the queue-pushing callback; `store` is
`packetStore_->count()`, i.e. `processedCount()`. -/
structure PipelineState where
  capturing : Bool
  delivered : Nat
  ingest : List (Option Unit)
  disp : DispState
  tasks : List (Option Unit)
  accepting : Bool
  workers : List WorkState
  store : Nat
  phase : StopPhase
  deriving DecidableEq, Repr

/-- Number of data items in a queue. -/
def dataCount (l : List (Option Unit)) : Nat :=
  l.countP (fun x => x.isSome)

/-- Number of poison pills in a queue. -/
def pillCount (l : List (Option Unit)) : Nat :=
  l.countP (fun x => x.isNone)

/-- Number of frames held by the dispatcher (0 or 1). -/
def holdCount (d : DispState) : Nat :=
  if d = .holding then 1 else 0

/-- Number of workers currently executing a task. -/
def busyCount (ws : List WorkState) : Nat :=
  ws.countP (fun w => w == WorkState.busy)

/-- Number of workers that have exited their loop. -/
def exitedCount (ws : List WorkState) : Nat :=
  ws.countP (fun w => w == WorkState.exited)

/-- True once step (2) of `stop()` has pushed the queue sentinel. -/
def pillPushed : StopPhase → Bool
  | .pillSent | .dispJoined | .poolStopping | .stopped => true
  | _ => false

/-- True once step (4) of `stop()` has flipped the pool's `stopped_` flag. -/
def poolDown : StopPhase → Bool
  | .poolStopping | .stopped => true
  | _ => false

/-- True once step (3) of `stop()` has joined the dispatcher thread. -/
def dispJoinedPhase : StopPhase → Bool
  | .dispJoined | .poolStopping | .stopped => true
  | _ => false

/-- True before step (2) of `stop()` has pushed the queue sentinel. -/
def prePill : StopPhase → Bool
  | .running | .capStopped => true
  | _ => false

/-- One atomic transition of the pipeline. -/
inductive Step : PipelineState → PipelineState → Prop where
  | deliver (s : PipelineState) (h : s.capturing = true) :
      Step s { s with ingest := s.ingest ++ [some ()]
                    , delivered := s.delivered + 1 }
  | dispPop (s : PipelineState) (rest : List (Option Unit))
      (hd : s.disp = .idle) (hq : s.ingest = some () :: rest) :
      Step s { s with ingest := rest, disp := .holding }
  | dispSubmit (s : PipelineState) (hd : s.disp = .holding) :
      Step s { s with disp := .idle
                    , tasks := if s.accepting then s.tasks ++ [some ()]
                               else s.tasks }
  | dispExit (s : PipelineState) (rest : List (Option Unit))
      (hd : s.disp = .idle) (hq : s.ingest = none :: rest) :
      Step s { s with ingest := rest, disp := .exited }
  | workerPop (s : PipelineState) (i : Nat) (rest : List (Option Unit))
      (hw : s.workers[i]? = some .idle) (hq : s.tasks = some () :: rest) :
      Step s { s with tasks := rest, workers := s.workers.set i .busy }
  | workerRun (s : PipelineState) (i : Nat)
      (hw : s.workers[i]? = some .busy) :
      Step s { s with workers := s.workers.set i .idle
                    , store := s.store + 1 }
  | workerExit (s : PipelineState) (i : Nat) (rest : List (Option Unit))
      (hw : s.workers[i]? = some .idle) (hq : s.tasks = none :: rest) :
      Step s { s with tasks := rest, workers := s.workers.set i .exited }
  | stopCapture (s : PipelineState) (h : s.phase = .running) :
      Step s { s with capturing := false, phase := .capStopped }
  | sendPill (s : PipelineState) (h : s.phase = .capStopped) :
      Step s { s with ingest := s.ingest ++ [none], phase := .pillSent }
  | joinDispatcher (s : PipelineState) (h : s.phase = .pillSent)
      (hd : s.disp = .exited) :
      Step s { s with phase := .dispJoined }
  | poolShutdown (s : PipelineState) (h : s.phase = .dispJoined) :
      Step s { s with accepting := false
                    , tasks := s.tasks ++ List.replicate s.workers.length none
                    , phase := .poolStopping }
  | joinWorkers (s : PipelineState) (h : s.phase = .poolStopping)
      (hw : ∀ w ∈ s.workers, w = WorkState.exited) :
      Step s { s with phase := .stopped }

/-- The state right after a successful `start(device)`: capture running,
empty queues, fresh pool of `max(threadCount, 1)` workers, empty store. -/
def startPipeline (threadCount : Nat) : PipelineState :=
  { capturing := true, delivered := 0, ingest := [], disp := .idle
  , tasks := [], accepting := true
  , workers := List.replicate (max threadCount 1) .idle
  , store := 0, phase := .running }

/-! Counting helper lemmas. -/

theorem countP_set_add (p : α → Bool) :
    ∀ (l : List α) (i : Nat) (a b : α), l[i]? = some a →
      (l.set i b).countP p + (if p a then 1 else 0)
        = l.countP p + (if p b then 1 else 0) := by
  intro l
  induction l with
  | nil => intro i a b h; simp at h
  | cons x xs ih =>
    intro i a b h
    cases i with
    | zero =>
      simp only [List.getElem?_cons_zero, Option.some_inj] at h
      subst h
      simp only [List.set_cons_zero, List.countP_cons]
      omega
    | succ j =>
      simp only [List.getElem?_cons_succ] at h
      simp only [List.set_cons_succ, List.countP_cons]
      have := ih j a b h
      omega

theorem dataCount_append (l1 l2 : List (Option Unit)) :
    dataCount (l1 ++ l2) = dataCount l1 + dataCount l2 := by
  simp [dataCount, List.countP_append]

theorem pillCount_append (l1 l2 : List (Option Unit)) :
    pillCount (l1 ++ l2) = pillCount l1 + pillCount l2 := by
  simp [pillCount, List.countP_append]

theorem dataCount_replicate_some (n : Nat) :
    dataCount (List.replicate n (some ())) = n := by
  simp [dataCount, List.countP_replicate]

theorem dataCount_replicate_none (n : Nat) :
    dataCount (List.replicate n none) = 0 := by
  simp [dataCount, List.countP_replicate]

theorem pillCount_replicate_none (n : Nat) :
    pillCount (List.replicate n none) = n := by
  simp [pillCount, List.countP_replicate]

theorem pillCount_replicate_some (n : Nat) :
    pillCount (List.replicate n (some ())) = 0 := by
  simp [pillCount, List.countP_replicate]

theorem dataCount_cons_some (rest : List (Option Unit)) :
    dataCount (some () :: rest) = dataCount rest + 1 := by
  simp [dataCount, List.countP_cons]

theorem dataCount_cons_none (rest : List (Option Unit)) :
    dataCount (none :: rest) = dataCount rest := by
  simp [dataCount, List.countP_cons]

theorem pillCount_cons_some (rest : List (Option Unit)) :
    pillCount (some () :: rest) = pillCount rest := by
  simp [pillCount, List.countP_cons]

theorem pillCount_cons_none (rest : List (Option Unit)) :
    pillCount (none :: rest) = pillCount rest + 1 := by
  simp [pillCount, List.countP_cons]

/-- The well-formed shape of both queues: all data items precede all pills. -/
def qform (l : List (Option Unit)) : Prop :=
  l = List.replicate (dataCount l) (some ()) ++ List.replicate (pillCount l) none

theorem qform_nil : qform [] := by
  simp [qform, dataCount, pillCount]

theorem qform_append_some (l : List (Option Unit)) (h : qform l)
    (hp : pillCount l = 0) : qform (l ++ [some ()]) := by
  have h1 : dataCount (l ++ [some ()]) = dataCount l + 1 := by
    rw [dataCount_append]
    simp [dataCount, List.countP_cons]
  have h2 : pillCount (l ++ [some ()]) = 0 := by
    rw [pillCount_append, hp]
    simp [pillCount, List.countP_cons]
  unfold qform
  rw [h1, h2, List.replicate_zero, List.append_nil, List.replicate_succ']
  unfold qform at h
  rw [hp, List.replicate_zero, List.append_nil] at h
  rw [← h]

theorem qform_append_none (l : List (Option Unit)) (h : qform l) :
    qform (l ++ [none]) := by
  have h1 : dataCount (l ++ [none]) = dataCount l := by
    rw [dataCount_append]
    simp [dataCount, List.countP_cons]
  have h2 : pillCount (l ++ [none]) = pillCount l + 1 := by
    rw [pillCount_append]
    simp [pillCount, List.countP_cons]
  unfold qform
  rw [h1, h2, List.replicate_succ', ← List.append_assoc, ← h]

theorem qform_append_replicate_none (l : List (Option Unit)) (n : Nat)
    (h : qform l) : qform (l ++ List.replicate n none) := by
  induction n with
  | zero => simpa using h
  | succ m ih =>
    rw [List.replicate_succ', ← List.append_assoc]
    exact qform_append_none _ ih

theorem qform_cons_some (l rest : List (Option Unit)) (h : qform l)
    (hc : l = some () :: rest) : qform rest := by
  subst hc
  unfold qform at h
  rw [dataCount_cons_some, pillCount_cons_some, List.replicate_succ] at h
  exact congrArg List.tail h

theorem qform_cons_none (l rest : List (Option Unit)) (h : qform l)
    (hc : l = none :: rest) : dataCount l = 0 ∧ qform rest := by
  subst hc
  unfold qform at h
  have hd : dataCount (none :: rest) = 0 := by
    rcases hdc : dataCount (none :: rest) with _ | d
    · rfl
    · rw [hdc, List.replicate_succ] at h
      have := congrArg List.head? h
      simp at this
  rw [hd, List.replicate_zero, List.nil_append, pillCount_cons_none,
    List.replicate_succ] at h
  have hrest : rest = List.replicate (pillCount rest) none :=
    congrArg List.tail h
  refine ⟨hd, ?_⟩
  have hdr : dataCount rest = 0 := by
    conv_lhs => rw [hrest]
    exact dataCount_replicate_none _
  unfold qform
  rw [hdr, List.replicate_zero, List.nil_append]
  exact hrest

theorem busyCount_replicate_idle (n : Nat) :
    busyCount (List.replicate n .idle) = 0 := by
  simp [busyCount, List.countP_replicate]

theorem exitedCount_replicate_idle (n : Nat) :
    exitedCount (List.replicate n .idle) = 0 := by
  simp [exitedCount, List.countP_replicate]

theorem exitedCount_le (ws : List WorkState) : exitedCount ws ≤ ws.length :=
  List.countP_le_length _

theorem busyCount_all_exited (ws : List WorkState)
    (h : ∀ w ∈ ws, w = WorkState.exited) : busyCount ws = 0 := by
  unfold busyCount
  rw [List.countP_eq_zero]
  intro a ha
  rw [h a ha]
  decide

theorem exitedCount_all_exited (ws : List WorkState)
    (h : ∀ w ∈ ws, w = WorkState.exited) : exitedCount ws = ws.length := by
  unfold exitedCount
  rw [List.countP_eq_length]
  intro a ha
  rw [h a ha]
  rfl

theorem poolDown_dispJoinedPhase (p : StopPhase) (h : poolDown p = true) :
    dispJoinedPhase p = true := by
  cases p <;> simp_all [poolDown, dispJoinedPhase]

theorem pillPushed_not_prePill (p : StopPhase) (h : pillPushed p = true) :
    prePill p = false := by
  cases p <;> simp_all [pillPushed, prePill]

/-- The global invariant preserved by every transition: the delivered-frame
count balances against the items still in flight, both queues keep their
data-before-sentinel shape, the sentinel of the ingest queue exists exactly
between step (2) of `stop()` and the dispatcher's exit, the pool sentinels
outstanding are one per not-yet-exited worker, and the controller phases
bound the states of the other threads. -/
structure Inv (s : PipelineState) : Prop where
  bal : s.delivered = dataCount s.ingest + holdCount s.disp +
    dataCount s.tasks + busyCount s.workers + s.store
  cap : s.capturing = true ↔ s.phase = .running
  acc : s.accepting = !(poolDown s.phase)
  iForm : qform s.ingest
  iPill : pillCount s.ingest =
    if pillPushed s.phase = true ∧ s.disp ≠ .exited then 1 else 0
  dEmpty : s.disp = .exited → s.ingest = []
  dJoin : dispJoinedPhase s.phase = true → s.disp = .exited
  dLive : prePill s.phase = true → s.disp ≠ .exited
  tForm : qform s.tasks
  tPill : pillCount s.tasks =
    if poolDown s.phase = true then s.workers.length - exitedCount s.workers
    else 0
  eZero : poolDown s.phase = false → exitedCount s.workers = 0
  eDrain : 0 < exitedCount s.workers → dataCount s.tasks = 0
  wFin : s.phase = .stopped → ∀ w ∈ s.workers, w = WorkState.exited
  wLen : 0 < s.workers.length

theorem inv_start (threadCount : Nat) : Inv (startPipeline threadCount) := by
  refine ⟨?_, ?_, ?_, ?_, ?_, ?_, ?_, ?_, ?_, ?_, ?_, ?_, ?_, ?_⟩
  · show 0 = dataCount [] + holdCount .idle + dataCount [] +
      busyCount (List.replicate (max threadCount 1) .idle) + 0
    rw [busyCount_replicate_idle]
    rfl
  · simp [startPipeline]
  · rfl
  · exact qform_nil
  · rfl
  · intro h
    simp [startPipeline] at h
  · intro h
    simp [startPipeline, dispJoinedPhase] at h
  · intro _
    simp [startPipeline]
  · exact qform_nil
  · rfl
  · intro _
    exact exitedCount_replicate_idle _
  · intro h
    simp only [startPipeline, exitedCount_replicate_idle] at h
    omega
  · intro h
    simp [startPipeline] at h
  · show 0 < (List.replicate (max threadCount 1) WorkState.idle).length
    rw [List.length_replicate]
    omega

theorem inv_step {s s' : PipelineState} (hstep : Step s s') (h : Inv s) :
    Inv s' := by
  cases hstep with
  | deliver hcapt =>
    have hph : s.phase = .running := h.cap.mp hcapt
    have hpz : pillCount s.ingest = 0 := by
      have hip := h.iPill
      rw [hph] at hip
      simpa [pillPushed] using hip
    refine ⟨?_, ?_, ?_, ?_, ?_, ?_, ?_, ?_, ?_, ?_, ?_, ?_, ?_, ?_⟩
    · show s.delivered + 1 = dataCount (s.ingest ++ [some ()]) +
        holdCount s.disp + dataCount s.tasks + busyCount s.workers + s.store
      rw [dataCount_append]
      have hb := h.bal
      have h1 : dataCount [some ()] = 1 := rfl
      omega
    · exact h.cap
    · exact h.acc
    · exact qform_append_some _ h.iForm hpz
    · show pillCount (s.ingest ++ [some ()]) =
        if pillPushed s.phase = true ∧ s.disp ≠ .exited then 1 else 0
      rw [pillCount_append, ← h.iPill, hpz]
      rfl
    · intro hde
      exact absurd hde (h.dLive (by rw [hph]; rfl))
    · intro hj
      have hj' : dispJoinedPhase s.phase = true := hj
      rw [hph] at hj'
      exact absurd hj' (by decide)
    · intro hp
      exact h.dLive hp
    · exact h.tForm
    · exact h.tPill
    · exact h.eZero
    · exact h.eDrain
    · intro hstop
      exact h.wFin hstop
    · exact h.wLen
  | dispPop rest hd hq =>
    have hqf : qform rest := qform_cons_some _ _ h.iForm hq
    have hpc : pillCount s.ingest = pillCount rest := by
      rw [hq, pillCount_cons_some]
    refine ⟨?_, ?_, ?_, ?_, ?_, ?_, ?_, ?_, ?_, ?_, ?_, ?_, ?_, ?_⟩
    · show s.delivered = dataCount rest + holdCount .holding +
        dataCount s.tasks + busyCount s.workers + s.store
      have hb := h.bal
      rw [hd] at hb
      have hdc : dataCount s.ingest = dataCount rest + 1 := by
        rw [hq, dataCount_cons_some]
      have h0 : holdCount DispState.idle = 0 := rfl
      have h1 : holdCount DispState.holding = 1 := rfl
      omega
    · exact h.cap
    · exact h.acc
    · exact hqf
    · show pillCount rest =
        if pillPushed s.phase = true ∧ DispState.holding ≠ DispState.exited
        then 1 else 0
      have hip := h.iPill
      rw [hpc, hd] at hip
      simpa using hip
    · intro hde
      exact absurd (show DispState.holding = DispState.exited from hde)
        (by decide)
    · intro hj
      have hj' : dispJoinedPhase s.phase = true := hj
      exact absurd (hd.symm.trans (h.dJoin hj')) (by decide)
    · intro _
      show DispState.holding ≠ DispState.exited
      decide
    · exact h.tForm
    · exact h.tPill
    · exact h.eZero
    · exact h.eDrain
    · intro hstop
      exact h.wFin hstop
    · exact h.wLen
  | dispSubmit hd =>
    have hacc : s.accepting = true := by
      cases hA : s.accepting
      · have hpd : poolDown s.phase = true := by
          have hacc' := h.acc
          rw [hA] at hacc'
          cases hq2 : poolDown s.phase
          · rw [hq2] at hacc'
            simp at hacc'
          · rfl
        have hdj := h.dJoin (poolDown_dispJoinedPhase _ hpd)
        rw [hd] at hdj
        exact absurd hdj (by decide)
      · rfl
    have hpd : poolDown s.phase = false := by
      have hacc' := h.acc
      rw [hacc] at hacc'
      cases hq2 : poolDown s.phase
      · rfl
      · rw [hq2] at hacc'
        simp at hacc'
    have htz : pillCount s.tasks = 0 := by
      rw [h.tPill, hpd]
      simp
    have htasks : (if s.accepting then s.tasks ++ [some ()] else s.tasks) =
        s.tasks ++ [some ()] := by
      simp [hacc]
    refine ⟨?_, ?_, ?_, ?_, ?_, ?_, ?_, ?_, ?_, ?_, ?_, ?_, ?_, ?_⟩
    · show s.delivered = dataCount s.ingest + holdCount .idle +
        dataCount (if s.accepting then s.tasks ++ [some ()] else s.tasks) +
        busyCount s.workers + s.store
      rw [htasks, dataCount_append]
      have hb := h.bal
      rw [hd] at hb
      have h0 : holdCount DispState.idle = 0 := rfl
      have h1 : holdCount DispState.holding = 1 := rfl
      have h2 : dataCount [some ()] = 1 := rfl
      omega
    · exact h.cap
    · exact h.acc
    · exact h.iForm
    · show pillCount s.ingest =
        if pillPushed s.phase = true ∧ DispState.idle ≠ DispState.exited
        then 1 else 0
      have hip := h.iPill
      rw [hd] at hip
      simpa using hip
    · intro hde
      exact absurd (show DispState.idle = DispState.exited from hde) (by decide)
    · intro hj
      have hj' : dispJoinedPhase s.phase = true := hj
      exact absurd (hd.symm.trans (h.dJoin hj')) (by decide)
    · intro _
      show DispState.idle ≠ DispState.exited
      decide
    · show qform (if s.accepting then s.tasks ++ [some ()] else s.tasks)
      rw [htasks]
      exact qform_append_some _ h.tForm htz
    · show pillCount (if s.accepting then s.tasks ++ [some ()] else s.tasks) =
        if poolDown s.phase = true
        then s.workers.length - exitedCount s.workers else 0
      rw [htasks, pillCount_append, htz, hpd]
      simp [pillCount]
    · exact h.eZero
    · intro hex
      have hex' : 0 < exitedCount s.workers := hex
      rw [h.eZero hpd] at hex'
      exact (Nat.lt_irrefl 0 hex').elim
    · intro hstop
      exact h.wFin hstop
    · exact h.wLen
  | dispExit rest hd hq =>
    obtain ⟨hdz, hqf⟩ := qform_cons_none _ _ h.iForm hq
    have hpc : pillCount s.ingest = pillCount rest + 1 := by
      rw [hq, pillCount_cons_none]
    have hdcr : dataCount rest = 0 := by
      have h2 : dataCount s.ingest = dataCount rest := by
        rw [hq, dataCount_cons_none]
      omega
    have hcond : pillPushed s.phase = true := by
      by_contra hnp
      have hip := h.iPill
      rw [if_neg (fun hcon => hnp hcon.1)] at hip
      omega
    have hdne : s.disp ≠ .exited := by
      rw [hd]
      decide
    have hp1 : pillCount s.ingest = 1 := by
      have hip := h.iPill
      rw [if_pos ⟨hcond, hdne⟩] at hip
      exact hip
    have hpcr : pillCount rest = 0 := by omega
    have hrest : rest = [] := by
      have hr := hqf
      unfold qform at hr
      rw [hdcr, hpcr] at hr
      simpa using hr
    refine ⟨?_, ?_, ?_, ?_, ?_, ?_, ?_, ?_, ?_, ?_, ?_, ?_, ?_, ?_⟩
    · show s.delivered = dataCount rest + holdCount .exited +
        dataCount s.tasks + busyCount s.workers + s.store
      have hb := h.bal
      rw [hd] at hb
      have h2 : dataCount s.ingest = dataCount rest := by
        rw [hq, dataCount_cons_none]
      have h0 : holdCount DispState.idle = 0 := rfl
      have h1 : holdCount DispState.exited = 0 := rfl
      omega
    · exact h.cap
    · exact h.acc
    · exact hqf
    · show pillCount rest =
        if pillPushed s.phase = true ∧ DispState.exited ≠ DispState.exited
        then 1 else 0
      simp [hpcr]
    · intro _
      exact hrest
    · intro _
      rfl
    · intro hpp
      have hpp' : prePill s.phase = true := hpp
      have hf := pillPushed_not_prePill _ hcond
      rw [hpp'] at hf
      exact absurd hf (by decide)
    · exact h.tForm
    · exact h.tPill
    · exact h.eZero
    · exact h.eDrain
    · intro hstop
      exact h.wFin hstop
    · exact h.wLen
  | workerPop i rest hw hq =>
    have hqf : qform rest := qform_cons_some _ _ h.tForm hq
    have hdc : dataCount s.tasks = dataCount rest + 1 := by
      rw [hq, dataCount_cons_some]
    have hpc : pillCount s.tasks = pillCount rest := by
      rw [hq, pillCount_cons_some]
    have hbusy : busyCount (s.workers.set i .busy) = busyCount s.workers + 1 := by
      have hh := countP_set_add (fun w => w == WorkState.busy) s.workers i
        WorkState.idle WorkState.busy hw
      simp at hh
      unfold busyCount
      omega
    have hexit : exitedCount (s.workers.set i .busy) =
        exitedCount s.workers := by
      have hh := countP_set_add (fun w => w == WorkState.exited) s.workers i
        WorkState.idle WorkState.busy hw
      simp at hh
      unfold exitedCount
      omega
    have hez : exitedCount s.workers = 0 := by
      by_contra hne
      have := h.eDrain (Nat.pos_of_ne_zero hne)
      omega
    refine ⟨?_, ?_, ?_, ?_, ?_, ?_, ?_, ?_, ?_, ?_, ?_, ?_, ?_, ?_⟩
    · show s.delivered = dataCount s.ingest + holdCount s.disp +
        dataCount rest + busyCount (s.workers.set i .busy) + s.store
      rw [hbusy]
      have hb := h.bal
      omega
    · exact h.cap
    · exact h.acc
    · exact h.iForm
    · exact h.iPill
    · exact h.dEmpty
    · exact h.dJoin
    · exact h.dLive
    · exact hqf
    · show pillCount rest =
        if poolDown s.phase = true
        then (s.workers.set i .busy).length -
          exitedCount (s.workers.set i .busy)
        else 0
      rw [List.length_set, hexit, ← hpc]
      exact h.tPill
    · intro hpd
      show exitedCount (s.workers.set i .busy) = 0
      rw [hexit]
      exact h.eZero hpd
    · intro hex
      have hex' : 0 < exitedCount (s.workers.set i .busy) := hex
      rw [hexit, hez] at hex'
      exact (Nat.lt_irrefl 0 hex').elim
    · intro hstop
      exact absurd (h.wFin hstop _ (List.getElem?_mem hw)) (by decide)
    · show 0 < (s.workers.set i .busy).length
      rw [List.length_set]
      exact h.wLen
  | workerRun i hw =>
    have hbusy : busyCount (s.workers.set i .idle) + 1 =
        busyCount s.workers := by
      have hh := countP_set_add (fun w => w == WorkState.busy) s.workers i
        WorkState.busy WorkState.idle hw
      simp at hh
      unfold busyCount
      omega
    have hexit : exitedCount (s.workers.set i .idle) =
        exitedCount s.workers := by
      have hh := countP_set_add (fun w => w == WorkState.exited) s.workers i
        WorkState.busy WorkState.idle hw
      simp at hh
      unfold exitedCount
      omega
    refine ⟨?_, ?_, ?_, ?_, ?_, ?_, ?_, ?_, ?_, ?_, ?_, ?_, ?_, ?_⟩
    · show s.delivered = dataCount s.ingest + holdCount s.disp +
        dataCount s.tasks + busyCount (s.workers.set i .idle) + (s.store + 1)
      have hb := h.bal
      omega
    · exact h.cap
    · exact h.acc
    · exact h.iForm
    · exact h.iPill
    · exact h.dEmpty
    · exact h.dJoin
    · exact h.dLive
    · exact h.tForm
    · show pillCount s.tasks =
        if poolDown s.phase = true
        then (s.workers.set i .idle).length -
          exitedCount (s.workers.set i .idle)
        else 0
      rw [List.length_set, hexit]
      exact h.tPill
    · intro hpd
      show exitedCount (s.workers.set i .idle) = 0
      rw [hexit]
      exact h.eZero hpd
    · intro hex
      have hex' : 0 < exitedCount (s.workers.set i .idle) := hex
      rw [hexit] at hex'
      exact h.eDrain hex'
    · intro hstop
      exact absurd (h.wFin hstop _ (List.getElem?_mem hw)) (by decide)
    · show 0 < (s.workers.set i .idle).length
      rw [List.length_set]
      exact h.wLen
  | workerExit i rest hw hq =>
    obtain ⟨hdz, hqf⟩ := qform_cons_none _ _ h.tForm hq
    have hdcr : dataCount rest = 0 := by
      have h2 : dataCount s.tasks = dataCount rest := by
        rw [hq, dataCount_cons_none]
      omega
    have hpc : pillCount s.tasks = pillCount rest + 1 := by
      rw [hq, pillCount_cons_none]
    have hbusy : busyCount (s.workers.set i .exited) =
        busyCount s.workers := by
      have hh := countP_set_add (fun w => w == WorkState.busy) s.workers i
        WorkState.idle WorkState.exited hw
      simp at hh
      unfold busyCount
      omega
    have hexit : exitedCount (s.workers.set i .exited) =
        exitedCount s.workers + 1 := by
      have hh := countP_set_add (fun w => w == WorkState.exited) s.workers i
        WorkState.idle WorkState.exited hw
      simp at hh
      unfold exitedCount
      omega
    have hpd : poolDown s.phase = true := by
      cases hpq : poolDown s.phase
      · have ht := h.tPill
        rw [hpq] at ht
        simp at ht
        omega
      · rfl
    have hle : exitedCount s.workers + 1 ≤ s.workers.length := by
      have hl := exitedCount_le (s.workers.set i .exited)
      rw [hexit, List.length_set] at hl
      exact hl
    refine ⟨?_, ?_, ?_, ?_, ?_, ?_, ?_, ?_, ?_, ?_, ?_, ?_, ?_, ?_⟩
    · show s.delivered = dataCount s.ingest + holdCount s.disp +
        dataCount rest + busyCount (s.workers.set i .exited) + s.store
      rw [hbusy]
      have hb := h.bal
      have h2 : dataCount s.tasks = dataCount rest := by
        rw [hq, dataCount_cons_none]
      omega
    · exact h.cap
    · exact h.acc
    · exact h.iForm
    · exact h.iPill
    · exact h.dEmpty
    · exact h.dJoin
    · exact h.dLive
    · exact hqf
    · show pillCount rest =
        if poolDown s.phase = true
        then (s.workers.set i .exited).length -
          exitedCount (s.workers.set i .exited)
        else 0
      rw [List.length_set, hexit, if_pos hpd]
      have ht := h.tPill
      rw [if_pos hpd] at ht
      omega
    · intro hcon
      have hcon' : poolDown s.phase = false := hcon
      exact absurd (hpd.symm.trans hcon') (by decide)
    · intro _
      exact hdcr
    · intro hstop
      have hstop' : s.phase = .stopped := hstop
      exact absurd (h.wFin hstop' _ (List.getElem?_mem hw)) (by decide)
    · show 0 < (s.workers.set i .exited).length
      rw [List.length_set]
      exact h.wLen
  | stopCapture hph =>
    refine ⟨?_, ?_, ?_, ?_, ?_, ?_, ?_, ?_, ?_, ?_, ?_, ?_, ?_, ?_⟩
    · exact h.bal
    · show false = true ↔ StopPhase.capStopped = StopPhase.running
      constructor <;> (intro hcon; exact absurd hcon (by decide))
    · have hacc' := h.acc
      rw [hph] at hacc'
      exact hacc'
    · exact h.iForm
    · have hip := h.iPill
      rw [hph] at hip
      exact hip
    · exact h.dEmpty
    · intro hj
      have hj' : dispJoinedPhase StopPhase.capStopped = true := hj
      exact absurd hj' (by decide)
    · intro _
      exact h.dLive (by rw [hph]; rfl)
    · exact h.tForm
    · have ht := h.tPill
      rw [hph] at ht
      exact ht
    · intro _
      exact h.eZero (by rw [hph]; rfl)
    · exact h.eDrain
    · intro hstop
      have hstop' : StopPhase.capStopped = StopPhase.stopped := hstop
      exact absurd hstop' (by decide)
    · exact h.wLen
  | sendPill hph =>
    have hpz : pillCount s.ingest = 0 := by
      have hip := h.iPill
      rw [hph] at hip
      simpa [pillPushed] using hip
    have hdne : s.disp ≠ .exited := h.dLive (by rw [hph]; rfl)
    have hcapf : s.capturing = false := by
      cases hc : s.capturing
      · rfl
      · have hr := h.cap.mp hc
        rw [hph] at hr
        exact absurd hr (by decide)
    refine ⟨?_, ?_, ?_, ?_, ?_, ?_, ?_, ?_, ?_, ?_, ?_, ?_, ?_, ?_⟩
    · show s.delivered = dataCount (s.ingest ++ [none]) + holdCount s.disp +
        dataCount s.tasks + busyCount s.workers + s.store
      rw [dataCount_append]
      have hb := h.bal
      have h1 : dataCount [(none : Option Unit)] = 0 := rfl
      omega
    · show s.capturing = true ↔ StopPhase.pillSent = StopPhase.running
      rw [hcapf]
      constructor <;> (intro hcon; exact absurd hcon (by decide))
    · have hacc' := h.acc
      rw [hph] at hacc'
      exact hacc'
    · exact qform_append_none _ h.iForm
    · show pillCount (s.ingest ++ [none]) =
        if pillPushed StopPhase.pillSent = true ∧ s.disp ≠ .exited
        then 1 else 0
      rw [pillCount_append, hpz, if_pos ⟨rfl, hdne⟩]
      rfl
    · intro hde
      exact absurd hde hdne
    · intro hj
      have hj' : dispJoinedPhase StopPhase.pillSent = true := hj
      exact absurd hj' (by decide)
    · intro hpp
      have hpp' : prePill StopPhase.pillSent = true := hpp
      exact absurd hpp' (by decide)
    · exact h.tForm
    · have ht := h.tPill
      rw [hph] at ht
      exact ht
    · intro _
      exact h.eZero (by rw [hph]; rfl)
    · exact h.eDrain
    · intro hstop
      have hstop' : StopPhase.pillSent = StopPhase.stopped := hstop
      exact absurd hstop' (by decide)
    · exact h.wLen
  | joinDispatcher hph hd =>
    have hing : s.ingest = [] := h.dEmpty hd
    have hcapf : s.capturing = false := by
      cases hc : s.capturing
      · rfl
      · have hr := h.cap.mp hc
        rw [hph] at hr
        exact absurd hr (by decide)
    refine ⟨?_, ?_, ?_, ?_, ?_, ?_, ?_, ?_, ?_, ?_, ?_, ?_, ?_, ?_⟩
    · exact h.bal
    · show s.capturing = true ↔ StopPhase.dispJoined = StopPhase.running
      rw [hcapf]
      constructor <;> (intro hcon; exact absurd hcon (by decide))
    · have hacc' := h.acc
      rw [hph] at hacc'
      exact hacc'
    · exact h.iForm
    · show pillCount s.ingest =
        if pillPushed StopPhase.dispJoined = true ∧ s.disp ≠ .exited
        then 1 else 0
      rw [hing, if_neg (fun hcon => hcon.2 hd)]
      rfl
    · intro _
      exact hing
    · intro _
      exact hd
    · intro hpp
      have hpp' : prePill StopPhase.dispJoined = true := hpp
      exact absurd hpp' (by decide)
    · exact h.tForm
    · have ht := h.tPill
      rw [hph] at ht
      exact ht
    · intro _
      exact h.eZero (by rw [hph]; rfl)
    · exact h.eDrain
    · intro hstop
      have hstop' : StopPhase.dispJoined = StopPhase.stopped := hstop
      exact absurd hstop' (by decide)
    · exact h.wLen
  | poolShutdown hph =>
    have hpdold : poolDown s.phase = false := by
      rw [hph]
      rfl
    have hex0 : exitedCount s.workers = 0 := h.eZero hpdold
    have htz : pillCount s.tasks = 0 := by
      have ht := h.tPill
      rw [hpdold] at ht
      simpa using ht
    have hd : s.disp = .exited := h.dJoin (by rw [hph]; rfl)
    have hcapf : s.capturing = false := by
      cases hc : s.capturing
      · rfl
      · have hr := h.cap.mp hc
        rw [hph] at hr
        exact absurd hr (by decide)
    refine ⟨?_, ?_, ?_, ?_, ?_, ?_, ?_, ?_, ?_, ?_, ?_, ?_, ?_, ?_⟩
    · show s.delivered = dataCount s.ingest + holdCount s.disp +
        dataCount (s.tasks ++ List.replicate s.workers.length none) +
        busyCount s.workers + s.store
      rw [dataCount_append, dataCount_replicate_none]
      have hb := h.bal
      omega
    · show s.capturing = true ↔ StopPhase.poolStopping = StopPhase.running
      rw [hcapf]
      constructor <;> (intro hcon; exact absurd hcon (by decide))
    · show false = !(poolDown StopPhase.poolStopping)
      rfl
    · exact h.iForm
    · show pillCount s.ingest =
        if pillPushed StopPhase.poolStopping = true ∧ s.disp ≠ .exited
        then 1 else 0
      have hip := h.iPill
      rw [if_neg (fun hcon => hcon.2 hd)] at hip
      rw [if_neg (fun hcon => hcon.2 hd)]
      exact hip
    · exact h.dEmpty
    · intro _
      exact hd
    · intro hpp
      have hpp' : prePill StopPhase.poolStopping = true := hpp
      exact absurd hpp' (by decide)
    · exact qform_append_replicate_none _ _ h.tForm
    · show pillCount (s.tasks ++ List.replicate s.workers.length none) =
        if poolDown StopPhase.poolStopping = true
        then s.workers.length - exitedCount s.workers else 0
      rw [pillCount_append, htz, pillCount_replicate_none, hex0]
      simp [poolDown]
    · intro hcon
      have hcon' : poolDown StopPhase.poolStopping = false := hcon
      exact absurd hcon' (by decide)
    · intro hex
      have hex' : 0 < exitedCount s.workers := hex
      rw [hex0] at hex'
      exact (Nat.lt_irrefl 0 hex').elim
    · intro hstop
      have hstop' : StopPhase.poolStopping = StopPhase.stopped := hstop
      exact absurd hstop' (by decide)
    · exact h.wLen
  | joinWorkers hph hwAll =>
    have hd : s.disp = .exited := h.dJoin (by rw [hph]; rfl)
    have hcapf : s.capturing = false := by
      cases hc : s.capturing
      · rfl
      · have hr := h.cap.mp hc
        rw [hph] at hr
        exact absurd hr (by decide)
    refine ⟨?_, ?_, ?_, ?_, ?_, ?_, ?_, ?_, ?_, ?_, ?_, ?_, ?_, ?_⟩
    · exact h.bal
    · show s.capturing = true ↔ StopPhase.stopped = StopPhase.running
      rw [hcapf]
      constructor <;> (intro hcon; exact absurd hcon (by decide))
    · have hacc' := h.acc
      rw [hph] at hacc'
      exact hacc'
    · exact h.iForm
    · show pillCount s.ingest =
        if pillPushed StopPhase.stopped = true ∧ s.disp ≠ .exited
        then 1 else 0
      have hip := h.iPill
      rw [if_neg (fun hcon => hcon.2 hd)] at hip
      rw [if_neg (fun hcon => hcon.2 hd)]
      exact hip
    · exact h.dEmpty
    · intro _
      exact hd
    · intro hpp
      have hpp' : prePill StopPhase.stopped = true := hpp
      exact absurd hpp' (by decide)
    · exact h.tForm
    · have ht := h.tPill
      rw [hph] at ht
      exact ht
    · intro hcon
      have hcon' : poolDown StopPhase.stopped = false := hcon
      exact absurd hcon' (by decide)
    · exact h.eDrain
    · intro _
      exact hwAll
    · exact h.wLen

theorem inv_reachable {a b : PipelineState}
    (h : Relation.ReflTransGen Step a b) (ha : Inv a) : Inv b := by
  induction h with
  | refl => exact ha
  | tail _ hbc ih => exact inv_step hbc ih

/-- C1: in every interleaved execution that starts from a freshly started
pipeline and completes the ordered `stop()` sequence (stop capture, push one
sentinel, join the dispatcher, shut down the pool), the store afterwards
holds exactly one record per frame the capture source delivered — none lost,
none duplicated: `processedCount()` equals N. -/
theorem C1_stop_processes_all_delivered (threadCount : Nat)
    (s : PipelineState)
    (hreach : Relation.ReflTransGen Step (startPipeline threadCount) s)
    (hstop : s.phase = .stopped) :
    s.store = s.delivered := by
  have hinv := inv_reachable hreach (inv_start threadCount)
  have hdisp : s.disp = .exited := hinv.dJoin (by rw [hstop]; rfl)
  have hing : s.ingest = [] := hinv.dEmpty hdisp
  have hall := hinv.wFin hstop
  have hbusy : busyCount s.workers = 0 := busyCount_all_exited _ hall
  have hexf : exitedCount s.workers = s.workers.length :=
    exitedCount_all_exited _ hall
  have htd : dataCount s.tasks = 0 := by
    apply hinv.eDrain
    rw [hexf]
    exact hinv.wLen
  have hhold : holdCount s.disp = 0 := by
    rw [hdisp]
    rfl
  have hb := hinv.bal
  rw [hing] at hb
  have h0 : dataCount ([] : List (Option Unit)) = 0 := rfl
  omega

/-- Witness for C1: a concrete interleaving with one delivered frame and two
workers that runs the full stop sequence; afterwards the store count equals
the delivered count (both one). -/
theorem C1_stop_processes_all_delivered_witness :
    (⟨false, 1, [], .exited, [], false, [.exited, .exited], 1, .stopped⟩ :
      PipelineState).store =
    (⟨false, 1, [], .exited, [], false, [.exited, .exited], 1, .stopped⟩ :
      PipelineState).delivered := by
  refine C1_stop_processes_all_delivered 2 _ ?_ rfl
  refine Relation.ReflTransGen.head (Step.deliver _ rfl) ?_
  refine Relation.ReflTransGen.head (Step.stopCapture _ rfl) ?_
  refine Relation.ReflTransGen.head (Step.sendPill _ rfl) ?_
  refine Relation.ReflTransGen.head (Step.dispPop _ _ rfl rfl) ?_
  refine Relation.ReflTransGen.head (Step.dispSubmit _ rfl) ?_
  refine Relation.ReflTransGen.head (Step.dispExit _ _ rfl rfl) ?_
  refine Relation.ReflTransGen.head (Step.joinDispatcher _ rfl rfl) ?_
  refine Relation.ReflTransGen.head (Step.poolShutdown _ rfl) ?_
  refine Relation.ReflTransGen.head (Step.workerPop _ 0 _ rfl rfl) ?_
  refine Relation.ReflTransGen.head (Step.workerRun _ 0 rfl) ?_
  refine Relation.ReflTransGen.head (Step.workerExit _ 0 _ rfl rfl) ?_
  refine Relation.ReflTransGen.head (Step.workerExit _ 1 _ rfl rfl) ?_
  refine Relation.ReflTransGen.head (Step.joinWorkers _ rfl (by decide)) ?_
  exact Relation.ReflTransGen.refl

end PacketScope
